import Mathlib

/-!
Shallow embedding of the Covid-Dashboard repository: the cleaning pipeline in
`covid_dashboard/scripts/data_processor.py` and the query/aggregation
operations exercised by `covid_dashboard/app.py`.

Modelling conventions.  A dataframe is a list of column names together with a
list of rows of nullable cells; `none` plays the role of pandas `NaN`/`NaT`.
Float64 observations are modelled as rationals.  Dates are modelled
abstractly as integer keys: `pd.to_datetime` maps a date literal string
injectively to its key and is the identity on already converted dates.
Operations that can raise a pandas `KeyError` return `Except String`.
-/

set_option autoImplicit false

namespace CovidDashboard

/-- Cell values of a dataframe: strings, float64 numbers (as rationals) and
converted datetimes (as abstract integer keys). -/
inductive Val where
  | str (s : String)
  | num (q : ℚ)
  | date (n : Int)
deriving DecidableEq, Repr

/-- A nullable dataframe cell; `none` is pandas `NaN`/`NaT`. -/
abbrev Cell := Option Val

/-- A dataframe: an ordered list of column names and rows of cells, the j-th
cell of a row belonging to the j-th column. -/
structure DF where
  cols : List String
  rows : List (List Cell)
deriving DecidableEq, Repr

/-- Character-list test used to model the Python string methods
`startswith` and `endswith`: the first list is an initial segment of the
second. -/
def listIsInit : List Char → List Char → Bool
  | [], _ => true
  | _ :: _, [] => false
  | a :: as, b :: bs => a == b && listIsInit as bs

/-- Python `s.startswith(pre)`. -/
def pyStarts (s pre : String) : Bool := listIsInit pre.data s.data

/-- Python `s.endswith(suf)`. -/
def pyEnds (s suf : String) : Bool := listIsInit suf.data.reverse s.data.reverse

/-- Value of the column named `c` in a row: walk the column names and the
cells of the row in parallel and return the cell under the first matching
name (`none` when the column is absent or the row is too short). -/
def cellAt : List String → List Cell → String → Cell
  | _, [], _ => none
  | [], _, _ => none
  | a :: cols, v :: row, c => if a = c then v else cellAt cols row c

/-- Whether the dataframe has a column of the given name. -/
def DF.hasCol (df : DF) (c : String) : Bool := df.cols.contains c

/-- The cells of the column named `c`, one per row. -/
def DF.col (df : DF) (c : String) : List Cell :=
  df.rows.map (fun r => cellAt df.cols r c)

/-- Apply `f` to the cell of a row lying under the first column named `c`,
leaving every other cell alone. -/
def mapRowAtCol (c : String) (f : Cell → Cell) : List String → List Cell → List Cell
  | _, [] => []
  | [], r => r
  | a :: cols, v :: r => if a = c then f v :: r else v :: mapRowAtCol c f cols r

/-- Replace the column named `c` by its image under `f` (a no-op when the
column is absent). -/
def DF.mapCol (df : DF) (c : String) (f : Cell → Cell) : DF :=
  { df with rows := df.rows.map (mapRowAtCol c f df.cols) }

/-- Abstract injective key of a date literal string. -/
def dateKey (s : String) : Int :=
  s.data.foldl (fun a c => a * 256 + (c.toNat : Int)) 0

/-- Model of `pd.to_datetime` on one cell: `NaN` becomes `NaT`, an already
converted datetime is unchanged, a date literal string is converted to its
key, and a number is interpreted as an epoch offset. -/
def pdToDatetime : Cell → Cell
  | none => none
  | some (Val.date n) => some (Val.date n)
  | some (Val.str s) => some (Val.date (dateKey s))
  | some (Val.num q) => some (Val.date q.floor)

/-- Column whitelist of `clean_data` (data_processor.py lines 72-83).  Note
that it lists the raw name `location`, not the renamed `country`. -/
def columns_to_keep : List String :=
  ["iso_code", "continent", "location", "date",
   "total_cases", "new_cases", "total_deaths", "new_deaths",
   "total_cases_per_million", "new_cases_per_million",
   "total_deaths_per_million", "new_deaths_per_million",
   "reproduction_rate", "icu_patients", "hosp_patients",
   "total_tests", "new_tests", "total_vaccinations",
   "people_vaccinated", "people_fully_vaccinated",
   "new_vaccinations", "population", "population_density",
   "median_age", "gdp_per_capita", "hospital_beds_per_thousand",
   "people_fully_vaccinated_per_hundred"]

/-- Critical identifying columns of `clean_data` (data_processor.py line
105). -/
def critical_cols : List String := ["iso_code", "country", "date"]

/-- Line 69, `df[ 'date' ] = pd.to_datetime(df[ 'date' ])`: convert the date
column, raising a `KeyError` when it is absent. -/
def toDatetimeStage (df : DF) : Except String DF :=
  if df.hasCol "date" then .ok (df.mapCol "date" pdToDatetime)
  else .error "KeyError: date"

/-- Lines 85-90: keep the whitelisted columns that are present, in whitelist
order, then rename `location` to `country`. -/
def cleanSelect (df : DF) : DF :=
  let keep := columns_to_keep.filter (fun c => df.cols.contains c)
  { cols := keep.map (fun c => if c = "location" then "country" else c),
    rows := df.rows.map (fun r => keep.map (fun c => cellAt df.cols r c)) }

/-- Last non-null cell of a list (the candidate a forward fill propagates). -/
def lastSome : List Cell → Cell
  | [] => none
  | v :: l =>
    match lastSome l with
    | some x => some x
    | none => v

/-- Values of the rows whose group key (first component) equals `some g`, in
row order: the series `groupby` hands to a per-group operation. -/
def groupVals (g : Val) (pairs : List (Cell × Cell)) : List Cell :=
  (pairs.filter (fun p => p.1 == some g)).map Prod.snd

/-- Line 97, `df.groupby('country')[col].fillna(method='ffill')` written back
into the column: position `i` of the result is the last non-null value at or
before `i` among the rows with the same non-null group key; rows whose key is
null fall outside every group and the write-back aligns them to `NaN`. -/
def ffillColumn (pairs : List (Cell × Cell)) : List Cell :=
  (List.range pairs.length).map (fun i =>
    match (pairs.getD i (none, none)).1 with
    | none => none
    | some g => lastSome (groupVals g (pairs.take (i + 1))))

/-- Numeric values of a list of cells, nulls skipped. -/
def numVals (l : List Cell) : List ℚ :=
  l.filterMap (fun v =>
    match v with
    | some (Val.num q) => some q
    | _ => none)

/-- Insert a rational into a sorted list. -/
def insertQ (q : ℚ) : List ℚ → List ℚ
  | [] => [q]
  | x :: xs => if q ≤ x then q :: x :: xs else x :: insertQ q xs

/-- Insertion sort on rationals. -/
def sortQ : List ℚ → List ℚ
  | [] => []
  | x :: xs => insertQ x (sortQ xs)

/-- Model of `Series.median` with the pandas default `skipna`: the middle
element of the sorted values for an odd count, the mean of the two middle
elements for an even count, `NaN` for an empty list. -/
def medianQ (l : List ℚ) : Option ℚ :=
  let s := sortQ l
  let n := s.length
  if n = 0 then none
  else if n % 2 = 1 then some (s.getD (n / 2) 0)
  else some ((s.getD (n / 2 - 1) 0 + s.getD (n / 2) 0) / 2)

/-- Lines 100-102, `df.groupby('country')[col].transform(lambda x:
x.fillna(x.median()))` written back into the column: a non-null value is
kept, a null value becomes the median of the non-null values of its whole
group, and rows with a null group key align to `NaN` on write-back. -/
def medianFillColumn (pairs : List (Cell × Cell)) : List Cell :=
  pairs.map (fun p =>
    match p.1 with
    | none => none
    | some g =>
      match p.2 with
      | some v => some v
      | none => (medianQ (numVals (groupVals g pairs))).map Val.num)

/-- Whether a cell may belong to a float64/int64 column. -/
def numericCell : Cell → Bool
  | none => true
  | some (Val.num _) => true
  | _ => false

/-- Model of dtype selection: a column counts as float64/int64 when every
cell is a number or null (an all-null column reads as float64). -/
def DF.isNumericCol (df : DF) (c : String) : Bool :=
  (df.col c).all numericCell

/-- Line 93, `df.select_dtypes(include=['float64', 'int64']).columns`. -/
def DF.numericCols (df : DF) : List String :=
  df.cols.filter (fun c => df.isNumericCol c)

/-- Imputation strategy chosen by the loop on lines 94-102. -/
inductive FillKind where
  | keep
  | ffill
  | median
deriving DecidableEq, Repr

/-- Lines 94-102: a numeric column starting with `total_` is forward filled,
a numeric column ending with `_rate` or `_density` is median filled, every
other column is left alone. -/
def fillClass (numericCols : List String) (c : String) : FillKind :=
  if numericCols.contains c && pyStarts c "total_" then .ffill
  else if numericCols.contains c && (pyEnds c "_rate" || pyEnds c "_density") then .median
  else .keep

/-- The cells of column `c` after the imputation loop. -/
def DF.filledCol (df : DF) (c : String) : List Cell :=
  match fillClass df.numericCols c with
  | .ffill => ffillColumn ((df.col "country").zip (df.col c))
  | .median => medianFillColumn ((df.col "country").zip (df.col c))
  | .keep => df.col c

/-- Lines 93-102: the imputation loop.  `groupby('country')` raises a
`KeyError` when some numeric column needs a grouped fill and the `country`
column is absent; otherwise every column is replaced by its filled
version. -/
def applyFills (df : DF) : Except String DF :=
  if df.numericCols.any
      (fun c => pyStarts c "total_" || pyEnds c "_rate" || pyEnds c "_density")
      && !df.hasCol "country" then
    .error "KeyError: country"
  else
    .ok { cols := df.cols,
          rows := (List.range df.rows.length).map (fun i =>
            df.cols.map (fun c => (df.filledCol c).getD i none)) }

/-- Lines 104-106, `df.dropna(subset=['iso_code', 'country', 'date'])`: a
`KeyError` when a critical column is absent, otherwise keep exactly the rows
whose three critical cells are non-null. -/
def dropCritical (df : DF) : Except String DF :=
  if critical_cols.all df.hasCol then
    .ok { df with
          rows := df.rows.filter (fun r =>
            critical_cols.all (fun c => (cellAt df.cols r c).isSome)) }
  else .error "KeyError: critical column missing"

/-- The whole of `clean_data` (data_processor.py lines 56-109): convert the
date column, select and rename columns, impute, drop rows with missing
critical data. -/
def clean_data (df : DF) : Except String DF :=
  match toDatetimeStage df with
  | .error e => .error e
  | .ok d1 =>
    match applyFills (cleanSelect d1) with
    | .error e => .error e
    | .ok d3 => dropCritical d3

/-- State of the caller table object after `clean_data` returns: line 69
assigns the converted date column into the caller frame in place, and the
`.copy()` on line 87 isolates every later step, so only the date column of
the caller frame changes (and nothing changes when the date column is absent,
because the `KeyError` fires before the assignment). -/
def clean_data_caller (df : DF) : DF :=
  if df.hasCol "date" then df.mapCol "date" pdToDatetime else df

/-- Persisted state touched by `save_data`: the contents of
`processed_covid_data.csv` (as lines) and of `last_updated.txt`, `none`
standing for a file that does not exist. -/
structure Storage where
  processed_file : Option (List String)
  last_updated_file : Option String
deriving DecidableEq, Repr

/-- CSV rendering of one cell. -/
def csvCell : Cell → String
  | none => ""
  | some (Val.str s) => s
  | some (Val.num q) => toString q
  | some (Val.date n) => toString n

/-- CSV rendering of one row. -/
def csvRow (r : List Cell) : String :=
  String.intercalate "," (r.map csvCell)

/-- Lines of the CSV file `df.to_csv(..., index=False)` writes: the header
line followed by one line per row. -/
def csvLines (df : DF) : List String :=
  String.intercalate "," df.cols :: df.rows.map csvRow

/-- `save_data` (lines 129-146) run to completion: `to_csv` overwrites the
processed file in place, then the timestamp file is overwritten. -/
def save_data (_st : Storage) (df : DF) (timestamp : String) : Storage :=
  { processed_file := some (csvLines df), last_updated_file := some timestamp }

/-- `save_data` whose serialization fails partway: `to_csv` opens the target
file in write mode, truncating it, and has streamed only the first `k` lines
when the failure hits; the timestamp write on lines 142-144 is never
reached. -/
def save_data_interrupted (st : Storage) (df : DF) (k : Nat) : Storage :=
  { st with processed_file := some ((csvLines df).take k) }

/-- app.py lines 113-116: an empty selection is falsy, so the data passes
through unfiltered; otherwise keep the rows whose country is in the
selection (`isin` is false on a null or non-string country). -/
def filter_by_entities (selected : List String) (data : DF) : DF :=
  if selected.isEmpty then data
  else
    { data with
      rows := data.rows.filter (fun r =>
        match cellAt data.cols r "country" with
        | some (Val.str s) => selected.contains s
        | _ => false) }

/-- app.py line 217, `series.rolling(window=w).mean()` with the pandas
default `min_periods` equal to the window size: position `i` averages the
non-null values among the `min (i+1) w` entries ending at `i`, and is null
unless that window holds at least `w` non-null values. -/
def rolling_mean (w : Nat) (xs : List (Option ℚ)) : List (Option ℚ) :=
  (List.range xs.length).map (fun i =>
    let win := (xs.take (i + 1)).drop (i + 1 - w)
    let vals := win.filterMap id
    if w ≤ vals.length then some (vals.sum / (vals.length : ℚ)) else none)

/-- Float64 values as produced by the arithmetic in app.py: finite numbers
and the two infinities; a null cell (`none`) is `NaN`. -/
inductive FloatVal where
  | num (q : ℚ)
  | pinf
  | ninf
deriving DecidableEq, Repr

/-- A nullable float64 cell. -/
abbrev FCell := Option FloatVal

/-- Elementwise pandas/IEEE-754 division as exercised on float64 columns:
`NaN` propagates, a nonzero number over zero gives a signed infinity,
`0 / 0` gives `NaN`, a finite number over an infinity gives `0`, an infinity
over an infinity gives `NaN`. -/
def pdDiv : FCell → FCell → FCell
  | none, _ => none
  | _, none => none
  | some (.num a), some (.num b) =>
    if b = 0 then
      if 0 < a then some .pinf
      else if a < 0 then some .ninf
      else none
    else some (.num (a / b))
  | some (.num _), some .pinf => some (.num 0)
  | some (.num _), some .ninf => some (.num 0)
  | some .pinf, some (.num b) => if b < 0 then some .ninf else some .pinf
  | some .ninf, some (.num b) => if b < 0 then some .pinf else some .ninf
  | some .pinf, some .pinf => none
  | some .pinf, some .ninf => none
  | some .ninf, some .pinf => none
  | some .ninf, some .ninf => none

/-- Multiplication of a float64 cell by a positive finite constant. -/
def pdScale (c : ℚ) : FCell → FCell
  | none => none
  | some (.num a) => some (.num (a * c))
  | some .pinf => some .pinf
  | some .ninf => some .ninf

/-- app.py line 314: `people_fully_vaccinated / population * 100`. -/
def vaccination_rate (part whole : FCell) : FCell :=
  pdScale 100 (pdDiv part whole)

/-- app.py line 315, `dropna(subset=['vaccination_rate'])` before the
ranking: keep the rows whose computed rate is non-null. -/
def dropna_rates {α : Type} (l : List (α × FCell)) : List (α × FCell) :=
  l.filter (fun p => p.2.isSome)

/-- Specification predicate following the words of claim C2 restated over the
row order of the table: for the row at position `i`, whose entity is `g`, the
output keeps a non-null value; a null value becomes the most recent preceding
non-null value of the same entity, and stays null when every value of the
entity up to `i` is null.  The decomposition in the second disjunct pins the
chosen value as the last non-null element of the series of the entity itself,
so the fill never takes a value from a different entity. -/
def FfillSpecAt (pairs : List (Cell × Cell)) (i : Nat) (g : Val) (out : Cell) : Prop :=
  ((pairs.getD i (none, none)).2.isSome → out = (pairs.getD i (none, none)).2) ∧
  ((pairs.getD i (none, none)).2 = none →
    (out = none ∧
      ∀ p ∈ pairs.take (i + 1), p.1 = some g → p.2 = none) ∨
    (∃ x l₁ l₂,
      out = some x ∧
      groupVals g (pairs.take (i + 1)) = l₁ ++ some x :: l₂ ∧
      ∀ y ∈ l₂, y = none))

/-- Insert a keyed row into a list sorted by key. -/
def insertByKey (p : Int × Cell) : List (Int × Cell) → List (Int × Cell)
  | [] => [p]
  | q :: l => if p.1 ≤ q.1 then p :: q :: l else q :: insertByKey p l

/-- Insertion sort of keyed rows by key. -/
def sortByKey : List (Int × Cell) → List (Int × Cell)
  | [] => []
  | p :: l => insertByKey p (sortByKey l)

/-- Written from the words of claim C2, not from the code: given the
(date, value) rows of a single entity, the chronological forward fill at date
`d` is the most recent non-null value at a date at or before `d` once the
rows are sorted chronologically. -/
def specChronFfillAt (entityRows : List (Int × Cell)) (d : Int) : Cell :=
  lastSome ((sortByKey (entityRows.filter (fun p => decide (p.1 ≤ d)))).map Prod.snd)

/-- Whether a pipeline stage succeeded. -/
def isOkE {α : Type} : Except String α → Bool
  | .ok _ => true
  | .error _ => false

instance {ε α : Type} [DecidableEq ε] [DecidableEq α] : DecidableEq (Except ε α) := fun a b =>
  match a, b with
  | .ok x, .ok y =>
    if h : x = y then isTrue (by rw [h]) else isFalse (fun hc => by cases hc; exact h rfl)
  | .error x, .error y =>
    if h : x = y then isTrue (by rw [h]) else isFalse (fun hc => by cases hc; exact h rfl)
  | .ok _, .error _ => isFalse (fun hc => by cases hc)
  | .error _, .ok _ => isFalse (fun hc => by cases hc)

/-- Raw table carrying a row whose identifying fields are partly missing: row
two has no `iso_code`, row three has no `location`. -/
def exC1 : DF :=
  { cols := ["iso_code", "location", "date", "total_cases"],
    rows := [[some (Val.str "A"), some (Val.str "A"), some (Val.date 1), some (Val.num 5)],
             [none, some (Val.str "B"), some (Val.date 1), some (Val.num 7)],
             [some (Val.str "A"), none, some (Val.date 2), none]] }

/-- Image of `exC1` under `clean_data`: both deficient rows are dropped and
the run succeeds. -/
def exC1out : DF :=
  { cols := ["iso_code", "country", "date", "total_cases"],
    rows := [[some (Val.str "A"), some (Val.str "A"), some (Val.date 1), some (Val.num 5)]] }

/-- The cumulative-fill example of the claim: entity `A` reports 5 on date 1,
nothing on dates 2 and 3, 8 on date 4, interleaved with an entity `B` that
never reports. -/
def exC2 : DF :=
  { cols := ["iso_code", "location", "date", "total_cases"],
    rows := [[some (Val.str "A"), some (Val.str "A"), some (Val.date 1), some (Val.num 5)],
             [some (Val.str "B"), some (Val.str "B"), some (Val.date 1), none],
             [some (Val.str "A"), some (Val.str "A"), some (Val.date 2), none],
             [some (Val.str "B"), some (Val.str "B"), some (Val.date 2), none],
             [some (Val.str "A"), some (Val.str "A"), some (Val.date 3), none],
             [some (Val.str "A"), some (Val.str "A"), some (Val.date 4), some (Val.num 8)]] }

/-- Image of `exC2` under `clean_data`: the series of `A` becomes 5, 5, 5, 8
and the rows of `B` stay null. -/
def exC2out : DF :=
  { cols := ["iso_code", "country", "date", "total_cases"],
    rows := [[some (Val.str "A"), some (Val.str "A"), some (Val.date 1), some (Val.num 5)],
             [some (Val.str "B"), some (Val.str "B"), some (Val.date 1), none],
             [some (Val.str "A"), some (Val.str "A"), some (Val.date 2), some (Val.num 5)],
             [some (Val.str "B"), some (Val.str "B"), some (Val.date 2), none],
             [some (Val.str "A"), some (Val.str "A"), some (Val.date 3), some (Val.num 5)],
             [some (Val.str "A"), some (Val.str "A"), some (Val.date 4), some (Val.num 8)]] }

/-- Raw table whose rows are not in chronological order: the row for date 2
(value missing) comes before the row for date 1 (value 5). -/
def exC2bad : DF :=
  { cols := ["iso_code", "location", "date", "total_cases"],
    rows := [[some (Val.str "A"), some (Val.str "A"), some (Val.date 2), none],
             [some (Val.str "A"), some (Val.str "A"), some (Val.date 1), some (Val.num 5)]] }

/-- Image of `exC2bad` under `clean_data`: the fill runs in row order, so the
date-2 row keeps its null even though date 1 holds a non-null value. -/
def exC2badOut : DF :=
  { cols := ["iso_code", "country", "date", "total_cases"],
    rows := [[some (Val.str "A"), some (Val.str "A"), some (Val.date 2), none],
             [some (Val.str "A"), some (Val.str "A"), some (Val.date 1), some (Val.num 5)]] }

/-- Already selected and renamed table with one cumulative column, used to
instantiate the forward-fill theorem. -/
def exC2mid : DF :=
  { cols := ["country", "total_cases"],
    rows := [[some (Val.str "A"), some (Val.num 5)],
             [some (Val.str "A"), none]] }

/-- Image of `exC2mid` under the imputation stage. -/
def exC2midOut : DF :=
  { cols := ["country", "total_cases"],
    rows := [[some (Val.str "A"), some (Val.num 5)],
             [some (Val.str "A"), some (Val.num 5)]] }

/-- The median-fill example of the claim: entity `A` reports the rates
10, null, 30. -/
def exC3 : DF :=
  { cols := ["iso_code", "location", "date", "reproduction_rate"],
    rows := [[some (Val.str "A"), some (Val.str "A"), some (Val.date 1), some (Val.num 10)],
             [some (Val.str "A"), some (Val.str "A"), some (Val.date 2), none],
             [some (Val.str "A"), some (Val.str "A"), some (Val.date 3), some (Val.num 30)]] }

/-- Image of `exC3` under `clean_data`: the null rate becomes the median 20
of the entity values 10 and 30. -/
def exC3out : DF :=
  { cols := ["iso_code", "country", "date", "reproduction_rate"],
    rows := [[some (Val.str "A"), some (Val.str "A"), some (Val.date 1), some (Val.num 10)],
             [some (Val.str "A"), some (Val.str "A"), some (Val.date 2), some (Val.num 20)],
             [some (Val.str "A"), some (Val.str "A"), some (Val.date 3), some (Val.num 30)]] }

/-- Already selected and renamed table with one rate column, used to
instantiate the median-fill theorem. -/
def exC3mid : DF :=
  { cols := ["country", "reproduction_rate"],
    rows := [[some (Val.str "A"), some (Val.num 10)],
             [some (Val.str "A"), none],
             [some (Val.str "A"), some (Val.num 30)]] }

/-- Image of `exC3mid` under the imputation stage. -/
def exC3midOut : DF :=
  { cols := ["country", "reproduction_rate"],
    rows := [[some (Val.str "A"), some (Val.num 10)],
             [some (Val.str "A"), some (Val.num 20)],
             [some (Val.str "A"), some (Val.num 30)]] }

/-- Well-formed raw table used to exhibit the failure of re-cleaning. -/
def exC4 : DF :=
  { cols := ["iso_code", "continent", "location", "date", "total_cases"],
    rows := [[some (Val.str "AFG"), some (Val.str "Asia"), some (Val.str "Afghanistan"),
              some (Val.date 1), some (Val.num 5)],
             [some (Val.str "AFG"), some (Val.str "Asia"), some (Val.str "Afghanistan"),
              some (Val.date 2), none]] }

/-- Image of `exC4` under `clean_data`: `location` has been renamed to
`country`, a name the whitelist does not contain. -/
def exC4out : DF :=
  { cols := ["iso_code", "continent", "country", "date", "total_cases"],
    rows := [[some (Val.str "AFG"), some (Val.str "Asia"), some (Val.str "Afghanistan"),
              some (Val.date 1), some (Val.num 5)],
             [some (Val.str "AFG"), some (Val.str "Asia"), some (Val.str "Afghanistan"),
              some (Val.date 2), some (Val.num 5)]] }

/-- Cleaned table to be persisted in the save examples. -/
def df5 : DF :=
  { cols := ["iso_code", "country"],
    rows := [[some (Val.str "AFG"), some (Val.str "Afghanistan")]] }

/-- Previously persisted good state: a dataset and a freshness timestamp. -/
def priorStorage : Storage :=
  { processed_file := some ["iso_code,country", "FRA,France"],
    last_updated_file := some "2021-01-01 00:00:00" }

/-- Raw table whose date column holds a date literal string. -/
def exC6 : DF := { cols := ["date"], rows := [[some (Val.str "d1")]] }

/-! General lemmas about list indexing. -/

theorem getD_lt {α : Type} (l : List α) (i : Nat) (d : α) (h : i < l.length) :
    l.getD i d = l[i] := by
  simp [List.getD_eq_getElem?_getD, List.getElem?_eq_getElem h]

theorem getD_range_map {α : Type} (f : Nat → α) (d : α) {n i : Nat} (h : i < n) :
    ((List.range n).map f).getD i d = f i := by
  simp [List.getD_eq_getElem?_getD, List.getElem?_map, List.getElem?_range h]

theorem getD_map_lt {α β : Type} (f : α → β) (l : List α) (i : Nat) (d : α) (d' : β)
    (h : i < l.length) : (l.map f).getD i d' = f (l.getD i d) := by
  simp [List.getD_eq_getElem?_getD, List.getElem?_map, List.getElem?_eq_getElem h]

theorem zip_getD {α β : Type} (l₁ : List α) (l₂ : List β) (i : Nat) (d₁ : α) (d₂ : β)
    (h₁ : i < l₁.length) (h₂ : i < l₂.length) :
    (l₁.zip l₂).getD i (d₁, d₂) = (l₁.getD i d₁, l₂.getD i d₂) := by
  induction l₁ generalizing l₂ i with
  | nil => simp at h₁
  | cons a l ih =>
    cases l₂ with
    | nil => simp at h₂
    | cons b m =>
      cases i with
      | zero => rfl
      | succ k =>
        simp only [List.zip_cons_cons, List.getD_cons_succ]
        exact ih m k (by simpa using h₁) (by simpa using h₂)

theorem take_succ_getD {α : Type} (l : List α) (i : Nat) (d : α) (h : i < l.length) :
    l.take (i + 1) = l.take i ++ [l.getD i d] := by
  rw [List.take_succ, List.getElem?_eq_getElem h, getD_lt l i d h]
  rfl

/-! Lemmas about looking a column up in a row. -/

theorem cellAt_map_self (cols : List String) (f : String → Cell) (c : String) (h : c ∈ cols) :
    cellAt cols (cols.map f) c = f c := by
  induction cols with
  | nil => cases h
  | cons a cols ih =>
    by_cases hac : a = c
    · simp [cellAt, hac]
    · have hmem : c ∈ cols := by
        cases h with
        | head => exact absurd rfl hac
        | tail _ h' => exact h'
      simp [cellAt, hac, ih hmem]

theorem cellAt_not_mem (cols : List String) (row : List Cell) (c : String) (h : c ∉ cols) :
    cellAt cols row c = none := by
  induction cols generalizing row with
  | nil => cases row <;> rfl
  | cons a cols ih =>
    cases row with
    | nil => rfl
    | cons v r =>
      have hac : a ≠ c := fun e => h (e ▸ List.mem_cons_self a cols)
      have hmem : c ∉ cols := fun hm => h (List.mem_cons_of_mem _ hm)
      simp [cellAt, hac, ih r hmem]

theorem cellAt_mapRowAtCol_ne (cols : List String) (row : List Cell) (c cq : String)
    (f : Cell → Cell) (h : cq ≠ c) :
    cellAt cols (mapRowAtCol c f cols row) cq = cellAt cols row cq := by
  induction cols generalizing row with
  | nil => cases row <;> rfl
  | cons a cols ih =>
    cases row with
    | nil => rfl
    | cons v r =>
      have hcq : ¬(c = cq) := fun e => h e.symm
      by_cases hac : a = c
      · simp [mapRowAtCol, cellAt, hac, hcq]
      · by_cases hacq : a = cq
        · simp [mapRowAtCol, cellAt, hac, hacq, hcq, h]
        · simp [mapRowAtCol, cellAt, hac, hacq, ih r]

theorem cellAt_mapRowAtCol_self (cols : List String) (row : List Cell) (c : String)
    (f : Cell → Cell) (hf : f none = none) :
    cellAt cols (mapRowAtCol c f cols row) c = f (cellAt cols row c) := by
  induction cols generalizing row with
  | nil => cases row <;> simp [cellAt, mapRowAtCol, hf]
  | cons a cols ih =>
    cases row with
    | nil => simp [cellAt, mapRowAtCol, hf]
    | cons v r =>
      by_cases hac : a = c
      · simp [mapRowAtCol, cellAt, hac]
      · simp [mapRowAtCol, cellAt, hac, ih r]

theorem mapCol_cols (df : DF) (c : String) (f : Cell → Cell) :
    (df.mapCol c f).cols = df.cols := rfl

theorem mapCol_col_ne (df : DF) (c cq : String) (f : Cell → Cell) (h : cq ≠ c) :
    (df.mapCol c f).col cq = df.col cq := by
  unfold DF.mapCol DF.col
  simp only [List.map_map]
  exact List.map_congr_left (fun r _ => cellAt_mapRowAtCol_ne df.cols r c cq f h)

theorem mapCol_col_self (df : DF) (c : String) (f : Cell → Cell) (hf : f none = none) :
    (df.mapCol c f).col c = (df.col c).map f := by
  unfold DF.mapCol DF.col
  simp only [List.map_map]
  exact List.map_congr_left (fun r _ => cellAt_mapRowAtCol_self df.cols r c f hf)

theorem col_length (df : DF) (c : String) : (df.col c).length = df.rows.length := by
  simp [DF.col]

/-! Lemmas about the forward fill. -/

theorem lastSome_eq_none_iff (l : List Cell) : lastSome l = none ↔ ∀ v ∈ l, v = none := by
  induction l with
  | nil => simp [lastSome]
  | cons v l ih =>
    simp only [List.mem_cons, forall_eq_or_imp]
    rw [← ih]
    cases hl : lastSome l with
    | some x => simp [lastSome, hl]
    | none => simp [lastSome, hl]

theorem lastSome_decomp (l : List Cell) (x : Val) (h : lastSome l = some x) :
    ∃ l₁ l₂, l = l₁ ++ some x :: l₂ ∧ ∀ y ∈ l₂, y = none := by
  induction l with
  | nil => simp [lastSome] at h
  | cons v l ih =>
    cases hl : lastSome l with
    | some z =>
      rw [show lastSome (v :: l) = some z from by simp [lastSome, hl]] at h
      cases h
      obtain ⟨l₁, l₂, hsplit, hn⟩ := ih hl
      exact ⟨v :: l₁, l₂, by rw [hsplit]; rfl, hn⟩
    | none =>
      have hv : v = some x := by simpa [lastSome, hl] using h
      exact ⟨[], l, by rw [hv]; rfl, (lastSome_eq_none_iff l).1 hl⟩

theorem lastSome_append_some (l₁ l₂ : List Cell) (x : Val) (h : lastSome l₂ = some x) :
    lastSome (l₁ ++ l₂) = some x := by
  induction l₁ with
  | nil => simpa using h
  | cons v l ih => simp [lastSome, ih]

theorem lastSome_append_none (l₁ l₂ : List Cell) (h : lastSome l₂ = none) :
    lastSome (l₁ ++ l₂) = lastSome l₁ := by
  induction l₁ with
  | nil => simpa using h
  | cons v l ih => simp [lastSome, ih]

theorem groupVals_append (g : Val) (l₁ l₂ : List (Cell × Cell)) :
    groupVals g (l₁ ++ l₂) = groupVals g l₁ ++ groupVals g l₂ := by
  simp [groupVals, List.filter_append]

theorem mem_groupVals (g : Val) (pairs : List (Cell × Cell)) (p : Cell × Cell)
    (hp : p ∈ pairs) (hk : p.1 = some g) : p.2 ∈ groupVals g pairs := by
  simp only [groupVals, List.mem_map]
  exact ⟨p, List.mem_filter.2 ⟨hp, by simp [hk]⟩, rfl⟩

theorem groupVals_single_mem (g : Val) (p : Cell × Cell) (hk : p.1 = some g) :
    groupVals g [p] = [p.2] := by
  simp [groupVals, hk]

theorem ffillColumn_getD_eq (pairs : List (Cell × Cell)) (i : Nat) (g : Val)
    (h : i < pairs.length) (hk : (pairs.getD i (none, none)).1 = some g) :
    (ffillColumn pairs).getD i none = lastSome (groupVals g (pairs.take (i + 1))) := by
  unfold ffillColumn
  rw [getD_range_map _ _ h, hk]

theorem ffillColumn_spec (pairs : List (Cell × Cell)) (i : Nat) (g : Val)
    (h : i < pairs.length) (hk : (pairs.getD i (none, none)).1 = some g) :
    FfillSpecAt pairs i g ((ffillColumn pairs).getD i none) := by
  rw [ffillColumn_getD_eq pairs i g h hk]
  have hdec : pairs.take (i + 1) = pairs.take i ++ [pairs.getD i (none, none)] :=
    take_succ_getD pairs i (none, none) h
  constructor
  · intro hv
    obtain ⟨v, hv'⟩ := Option.isSome_iff_exists.1 hv
    rw [hdec, groupVals_append, groupVals_single_mem g _ hk, hv']
    exact lastSome_append_some _ _ v (by simp [lastSome])
  · intro hv
    rw [hdec, groupVals_append, groupVals_single_mem g _ hk, hv,
      lastSome_append_none _ _ (by simp [lastSome])]
    cases hG : lastSome (groupVals g (pairs.take i)) with
    | none =>
      left
      refine ⟨rfl, ?_⟩
      intro p hp hpk
      rcases List.mem_append.1 hp with hpi | hpi
      · exact (lastSome_eq_none_iff _).1 hG _ (mem_groupVals g (pairs.take i) p hpi hpk)
      · have hpe : p = pairs.getD i (none, none) := by simpa using hpi
        rw [hpe]
        exact hv
    | some x =>
      right
      obtain ⟨l₁, l₂, hsplit, hnone⟩ := lastSome_decomp _ x hG
      refine ⟨x, l₁, l₂ ++ [none], rfl, ?_, ?_⟩
      · rw [hsplit]
        simp
      · intro y hy
        rcases List.mem_append.1 hy with hyi | hyi
        · exact hnone y hyi
        · simpa using hyi

theorem medianFillColumn_getD_none (pairs : List (Cell × Cell)) (i : Nat) (g : Val)
    (h : i < pairs.length) (hk : (pairs.getD i (none, none)).1 = some g)
    (hv : (pairs.getD i (none, none)).2 = none) :
    (medianFillColumn pairs).getD i none =
      (medianQ (numVals (groupVals g pairs))).map Val.num := by
  unfold medianFillColumn
  rw [getD_map_lt _ pairs i (none, none) none h]
  simp only [hk, hv]

theorem medianFillColumn_getD_some (pairs : List (Cell × Cell)) (i : Nat) (g : Val) (v : Val)
    (h : i < pairs.length) (hk : (pairs.getD i (none, none)).1 = some g)
    (hv : (pairs.getD i (none, none)).2 = some v) :
    (medianFillColumn pairs).getD i none = some v := by
  unfold medianFillColumn
  rw [getD_map_lt _ pairs i (none, none) none h]
  simp only [hk, hv]

/-! Lemmas about the stages of `clean_data`. -/

theorem applyFills_ok {df dfo : DF} (h : applyFills df = .ok dfo) :
    dfo.cols = df.cols ∧
    dfo.rows = (List.range df.rows.length).map (fun i =>
      df.cols.map (fun c => (df.filledCol c).getD i none)) := by
  unfold applyFills at h
  split at h
  · cases h
  · cases h
    exact ⟨rfl, rfl⟩

theorem applyFills_cell {df dfo : DF} (h : applyFills df = .ok dfo) (c : String)
    (hc : c ∈ df.cols) (i : Nat) (hi : i < df.rows.length) :
    cellAt dfo.cols (dfo.rows.getD i []) c = (df.filledCol c).getD i none := by
  obtain ⟨hcols, hrows⟩ := applyFills_ok h
  rw [hcols, hrows, getD_range_map _ _ hi]
  exact cellAt_map_self df.cols _ c hc

theorem toDatetimeStage_ok_cols {df d1 : DF} (h : toDatetimeStage df = .ok d1) :
    d1.cols = df.cols := by
  unfold toDatetimeStage at h
  split at h
  · cases h
    rfl
  · cases h

theorem cleanSelect_cols (df : DF) :
    (cleanSelect df).cols =
      (columns_to_keep.filter (fun c => df.cols.contains c)).map
        (fun c => if c = "location" then "country" else c) := rfl

theorem mem_cleanSelect_cols {df : DF} {x : String} (h : x ∈ (cleanSelect df).cols) :
    ∃ c, c ∈ columns_to_keep ∧ c ∈ df.cols ∧
      (if c = "location" then "country" else c) = x := by
  rw [cleanSelect_cols] at h
  obtain ⟨c, hc, hx⟩ := List.mem_map.1 h
  obtain ⟨hc1, hc2⟩ := List.mem_filter.1 hc
  exact ⟨c, hc1, by simpa using hc2, hx⟩

theorem dropCritical_ok {df dfo : DF} (h : dropCritical df = .ok dfo) :
    dfo.cols = df.cols ∧
    dfo.rows = df.rows.filter
      (fun r => critical_cols.all (fun c => (cellAt df.cols r c).isSome)) ∧
    critical_cols.all df.hasCol = true := by
  unfold dropCritical at h
  split at h
  next hcond =>
    cases h
    exact ⟨rfl, rfl, hcond⟩
  next => cases h

theorem clean_data_ok_struct {df dfo : DF} (h : clean_data df = .ok dfo) :
    ∃ d1 d3, toDatetimeStage df = .ok d1 ∧ applyFills (cleanSelect d1) = .ok d3 ∧
      dropCritical d3 = .ok dfo := by
  unfold clean_data at h
  split at h
  · cases h
  next d1 h1 =>
    split at h
    · cases h
    next d3 h2 => exact ⟨d1, d3, h1, h2, h⟩

theorem clean_data_ok_cols {df dfo : DF} (h : clean_data df = .ok dfo) :
    "country" ∈ dfo.cols ∧ "date" ∈ dfo.cols ∧ "location" ∉ dfo.cols := by
  obtain ⟨d1, d3, h1, h2, h3⟩ := clean_data_ok_struct h
  obtain ⟨hc3, -, hcrit⟩ := dropCritical_ok h3
  obtain ⟨hc2, -⟩ := applyFills_ok h2
  have hcols : dfo.cols = (cleanSelect d1).cols := by rw [hc3, hc2]
  have hall : d3.hasCol "iso_code" ∧ d3.hasCol "country" ∧ d3.hasCol "date" := by
    simpa [critical_cols] using hcrit
  refine ⟨?_, ?_, ?_⟩
  · have := hall.2.1
    rw [hc3]
    simpa [DF.hasCol] using this
  · have := hall.2.2
    rw [hc3]
    simpa [DF.hasCol] using this
  · rw [hcols]
    intro hmem
    obtain ⟨c, hck, hcin, hx⟩ := mem_cleanSelect_cols hmem
    by_cases hcl : c = "location"
    · rw [if_pos hcl] at hx
      exact absurd hx (by decide)
    · rw [if_neg hcl] at hx
      exact hcl hx

/-! The claims. -/

/-- Claim C1: for every raw input table on which `clean_data` succeeds, every
row of the returned table has non-null values in the three critical
identifying fields `iso_code`, `country` and `date`; rows missing one of
them are dropped rather than making the operation fail (the witness runs the
pipeline on a table containing such rows). -/
theorem C1_critical_fields_nonnull :
    ∀ (df dfo : DF), clean_data df = .ok dfo → ∀ r ∈ dfo.rows,
      (cellAt dfo.cols r "iso_code").isSome = true ∧
      (cellAt dfo.cols r "country").isSome = true ∧
      (cellAt dfo.cols r "date").isSome = true := by
  intro df dfo h r hr
  obtain ⟨d1, d3, -, -, h3⟩ := clean_data_ok_struct h
  obtain ⟨hc, hrows, -⟩ := dropCritical_ok h3
  rw [hrows] at hr
  have hpred := List.of_mem_filter hr
  rw [hc]
  simpa [critical_cols] using hpred

/-- Witness for C1: `clean_data` succeeds on `exC1`, a table with a row
missing `iso_code` and a row missing `location`, and the surviving first row
has all three critical fields non-null. -/
theorem C1_witness :
    (cellAt exC1out.cols (exC1out.rows.getD 0 []) "iso_code").isSome = true ∧
    (cellAt exC1out.cols (exC1out.rows.getD 0 []) "country").isSome = true ∧
    (cellAt exC1out.cols (exC1out.rows.getD 0 []) "date").isSome = true :=
  C1_critical_fields_nonnull exC1 exC1out (by decide) (exC1out.rows.getD 0 []) (by decide)

/-- Counterexample to claim C2 as stated: `clean_data` does not fill along
each entity chronologically ordered series; it fills in the row order of the
table.  On `exC2bad`, whose two rows of entity `A` are (date 2, null) then
(date 1, 5), the cleaned value at date 2 stays null, while the most recent
chronologically prior non-null value demanded by the claim is 5, the value
the spec-side chronological fill returns. -/
theorem C2_chronology_counterexample :
    clean_data exC2bad = .ok exC2badOut ∧
    cellAt exC2badOut.cols (exC2badOut.rows.getD 0 []) "total_cases" = none ∧
    specChronFfillAt [(2, none), (1, some (Val.num 5))] 2 = some (Val.num 5) ∧
    cellAt exC2badOut.cols (exC2badOut.rows.getD 0 []) "total_cases" ≠
      specChronFfillAt [(2, none), (1, some (Val.num 5))] 2 :=
  ⟨by decide, by decide, by decide, by decide⟩

/-- Claim C2 (amended): during `clean_data`, a numeric column classified as
cumulative (name starting with `total_`) is forward filled within each
entity in the row order of the table: a non-null value is kept; a missing
value takes the most recent preceding non-null value of the same entity,
stays null when the entity has no earlier non-null value, and never takes a
value from a different entity.  The last conjunct checks the example of
the claim end to end: entity `A` with values (d1, 5), (d2, null), (d3,
null), (d4, 8) comes out as 5, 5, 5, 8 while an interleaved entity `B`
stays null. -/
theorem C2_row_order_ffill :
    (∀ (df dfo : DF) (c : String) (i : Nat) (g : Val),
        applyFills df = .ok dfo →
        c ∈ df.cols →
        fillClass df.numericCols c = .ffill →
        i < df.rows.length →
        (df.col "country").getD i none = some g →
        FfillSpecAt ((df.col "country").zip (df.col c)) i g
          (cellAt dfo.cols (dfo.rows.getD i []) c)) ∧
    clean_data exC2 = .ok exC2out := by
  constructor
  · intro df dfo c i g h hc hfill hi hg
    rw [applyFills_cell h c hc i hi]
    unfold DF.filledCol
    rw [hfill]
    have hi1 : i < (df.col "country").length := by simpa [col_length] using hi
    have hi2 : i < (df.col c).length := by simpa [col_length] using hi
    have hkey : (((df.col "country").zip (df.col c)).getD i (none, none)).1 = some g := by
      rw [zip_getD _ _ i none none hi1 hi2]
      exact hg
    exact ffillColumn_spec _ i g (by simpa [List.length_zip, col_length] using hi) hkey
  · decide

/-- Witness for C2: the forward-fill theorem instantiated on the two-row
table `exC2mid`, whose second value of entity `A` is missing. -/
theorem C2_witness :
    FfillSpecAt ((exC2mid.col "country").zip (exC2mid.col "total_cases")) 1 (Val.str "A")
      (cellAt exC2midOut.cols (exC2midOut.rows.getD 1 []) "total_cases") :=
  C2_row_order_ffill.1 exC2mid exC2midOut "total_cases" 1 (Val.str "A")
    (by decide) (by decide) (by decide) (by decide) (by decide)

unseal Rat.add Rat.mul Rat.inv Rat.sub in
/-- Claim C3: during `clean_data`, a numeric column classified as
rate/density (name ending in `_rate` or `_density`) has each missing value
replaced by the median of the non-null values of the full series of its own
entity (a non-null value is untouched by construction of the fill).  The
remaining conjuncts check the example of the claim: the median of 10 and 30
is 20, and entity `A` with rates 10, null, 30 comes out of the full pipeline
as 10, 20, 30. -/
theorem C3_median_fill :
    (∀ (df dfo : DF) (c : String) (i : Nat) (g : Val),
        applyFills df = .ok dfo →
        c ∈ df.cols →
        fillClass df.numericCols c = .median →
        i < df.rows.length →
        (df.col "country").getD i none = some g →
        (df.col c).getD i none = none →
        cellAt dfo.cols (dfo.rows.getD i []) c =
          (medianQ (numVals (groupVals g ((df.col "country").zip (df.col c))))).map Val.num) ∧
    medianQ [10, 30] = some 20 ∧
    clean_data exC3 = .ok exC3out := by
  refine ⟨?_, by decide, by decide⟩
  intro df dfo c i g h hc hfill hi hg hv
  rw [applyFills_cell h c hc i hi]
  unfold DF.filledCol
  rw [hfill]
  have hi1 : i < (df.col "country").length := by simpa [col_length] using hi
  have hi2 : i < (df.col c).length := by simpa [col_length] using hi
  refine medianFillColumn_getD_none _ i g (by simpa [List.length_zip, col_length] using hi) ?_ ?_
  · rw [zip_getD _ _ i none none hi1 hi2]
    exact hg
  · rw [zip_getD _ _ i none none hi1 hi2]
    exact hv

unseal Rat.add Rat.mul Rat.inv Rat.sub in
/-- Witness for C3: the median-fill theorem instantiated on the three-row
table `exC3mid`, whose middle rate of entity `A` is missing; the computed
cell is the median 20. -/
theorem C3_witness :
    cellAt exC3midOut.cols (exC3midOut.rows.getD 1 []) "reproduction_rate" =
      (medianQ (numVals (groupVals (Val.str "A")
        ((exC3mid.col "country").zip (exC3mid.col "reproduction_rate"))))).map Val.num ∧
    cellAt exC3midOut.cols (exC3midOut.rows.getD 1 []) "reproduction_rate" =
      some (Val.num 20) :=
  ⟨C3_median_fill.1 exC3mid exC3midOut "reproduction_rate" 1 (Val.str "A")
      (by decide) (by decide) (by decide) (by decide) (by decide) (by decide),
    by decide⟩

/-- Counterexample to claim C4 as stated: `clean_data` is not idempotent.
On `exC4` the first run succeeds, but cleaning the cleaned table raises a
`KeyError`: the entity column of the output is named `country`, the column
whitelist lists only the raw name `location`, so the second selection drops
the entity column and `groupby('country')` fails. -/
theorem C4_reclean_counterexample :
    clean_data exC4 = .ok exC4out ∧
    clean_data exC4out = .error "KeyError: country" :=
  ⟨by decide, by decide⟩

/-- Claim C4 (amended): re-cleaning any successfully cleaned table fails
instead of reproducing it, because the cleaned table names its entity column
`country` while the whitelist only lists the raw name `location`; the second
run therefore drops the entity column and raises a `KeyError` (in the
grouped fill, or otherwise in the critical-column drop). -/
theorem C4_not_idempotent :
    ∀ (df dfo : DF), clean_data df = .ok dfo → isOkE (clean_data dfo) = false := by
  intro df dfo h
  obtain ⟨hcountry, hdate, hloc⟩ := clean_data_ok_cols h
  have hdc : dfo.hasCol "date" = true := by simpa [DF.hasCol] using hdate
  have h1 : toDatetimeStage dfo = .ok (dfo.mapCol "date" pdToDatetime) := by
    simp [toDatetimeStage, hdc]
  have hnc : "country" ∉ (cleanSelect (dfo.mapCol "date" pdToDatetime)).cols := by
    intro hmem
    obtain ⟨c, hck, hcin, hx⟩ := mem_cleanSelect_cols hmem
    rw [mapCol_cols] at hcin
    by_cases hcl : c = "location"
    · rw [hcl] at hcin
      exact hloc hcin
    · rw [if_neg hcl] at hx
      rw [hx] at hck
      exact absurd hck (by decide)
  simp only [clean_data, h1]
  cases h2 : applyFills (cleanSelect (dfo.mapCol "date" pdToDatetime)) with
  | error e => simp [isOkE]
  | ok d3 =>
    have hd3c : d3.cols = (cleanSelect (dfo.mapCol "date" pdToDatetime)).cols :=
      (applyFills_ok h2).1
    have hnc3 : d3.hasCol "country" = false := by
      rw [DF.hasCol, hd3c]
      simp [hnc]
    have hfalse : critical_cols.all d3.hasCol = false := by
      simp [critical_cols, hnc3]
    simp [dropCritical, hfalse, isOkE]

/-- Witness for C4: the amended theorem applied to the concrete run on
`exC4`; re-cleaning its output is not a success. -/
theorem C4_witness : isOkE (clean_data exC4out) = false :=
  C4_not_idempotent exC4 exC4out (by decide)

/-- Claim C5 is a requirement the code does not meet: `save_data` writes
`processed_covid_data.csv` in place with `to_csv`, so a serialization
failure partway destroys the previously persisted dataset.  Interrupting the
save of `df5` over the good state `priorStorage` after 0 lines (the file has
just been truncated) or after 1 line (only the header was streamed) leaves a
dataset different from the prior one, while the timestamp file still holds
the old stamp; the completed save is shown for contrast. -/
theorem C5_save_not_atomic :
    (save_data_interrupted priorStorage df5 0).processed_file ≠ priorStorage.processed_file ∧
    (save_data_interrupted priorStorage df5 1).processed_file ≠ priorStorage.processed_file ∧
    (save_data_interrupted priorStorage df5 0).last_updated_file =
      priorStorage.last_updated_file ∧
    save_data priorStorage df5 "2021-02-02 08:00:00" =
      { processed_file := some (csvLines df5),
        last_updated_file := some "2021-02-02 08:00:00" } :=
  ⟨by decide, by decide, by decide, by decide⟩

/-- Counterexample to claim C6 as stated: `clean_data` is not pure.  Line 69
assigns the converted date column into the caller frame before the copy on
line 87, so after the call the caller table `exC6` holds a converted
datetime where it held a date literal string. -/
theorem C6_mutation_counterexample : clean_data_caller exC6 ≠ exC6 := by decide

/-- Claim C6 (amended): `clean_data` is deterministic but mutates the caller
table in exactly one way: the `date` column is converted to datetime in
place, while the column list and every other column of the raw table are
left unchanged. -/
theorem C6_date_mutation_only :
    ∀ (df : DF) (c : String), c ≠ "date" →
      (clean_data_caller df).cols = df.cols ∧
      (clean_data_caller df).col c = df.col c ∧
      (clean_data_caller df).col "date" = (df.col "date").map pdToDatetime := by
  intro df c hc
  unfold clean_data_caller
  by_cases hd : df.hasCol "date" = true
  · rw [if_pos hd]
    exact ⟨mapCol_cols df _ _, mapCol_col_ne df "date" c pdToDatetime hc,
      mapCol_col_self df "date" pdToDatetime rfl⟩
  · rw [if_neg hd]
    refine ⟨rfl, rfl, ?_⟩
    have hnm : "date" ∉ df.cols := by
      intro hm
      exact hd (by simpa [DF.hasCol] using hm)
    unfold DF.col
    rw [List.map_map]
    exact List.map_congr_left (fun r _ => by
      simp [Function.comp, cellAt_not_mem df.cols r "date" hnm, pdToDatetime])

/-- Witness for C6: on the one-column table `exC6` the `total_cases` column
(absent, hence all null) is untouched by the call. -/
theorem C6_witness :
    (clean_data_caller exC6).col "total_cases" = exC6.col "total_cases" :=
  (C6_date_mutation_only exC6 "total_cases" (by decide)).2.1

/-- Counterexample to claim C8 as stated: the derived vaccination rate with
part 100 and whole 0 is positive infinity, not null; a row carrying it even
survives the null filter before the ranking. -/
theorem C8_zero_denominator_counterexample :
    vaccination_rate (some (.num 100)) (some (.num 0)) = some .pinf ∧
    (some FloatVal.pinf : FCell) ≠ (none : FCell) ∧
    dropna_rates [(([] : List Cell),
      vaccination_rate (some (.num 100)) (some (.num 0)))] =
      [(([] : List Cell), some .pinf)] :=
  ⟨by decide, by decide, by decide⟩

/-- Claim C8 (amended): the derived rate is the elementwise ratio times 100
under pandas float semantics: null when either operand is null or when both
are zero; a finite ratio when the denominator is nonzero; a signed infinity,
not null and not an exception, when a nonzero numerator meets a zero
denominator.  The null filter before the ranking keeps exactly the rows
whose rate is non-null (so it does not remove infinite rates). -/
theorem C8_derived_rate_semantics :
    (∀ w : FCell, vaccination_rate none w = none) ∧
    (∀ p : FCell, vaccination_rate p none = none) ∧
    (∀ a b : ℚ, b ≠ 0 →
      vaccination_rate (some (.num a)) (some (.num b)) = some (.num (a / b * 100))) ∧
    (∀ a : ℚ, 0 < a → vaccination_rate (some (.num a)) (some (.num 0)) = some .pinf) ∧
    (∀ a : ℚ, a < 0 → vaccination_rate (some (.num a)) (some (.num 0)) = some .ninf) ∧
    vaccination_rate (some (.num 0)) (some (.num 0)) = none ∧
    (∀ (l : List (List Cell × FCell)) (p : List Cell × FCell),
      p ∈ dropna_rates l → p.2 ≠ none) := by
  refine ⟨?_, ?_, ?_, ?_, ?_, by decide, ?_⟩
  · intro w
    cases w with
    | none => rfl
    | some v => cases v <;> rfl
  · intro p
    cases p with
    | none => rfl
    | some v => cases v <;> rfl
  · intro a b hb
    simp [vaccination_rate, pdDiv, pdScale, hb]
  · intro a ha
    simp [vaccination_rate, pdDiv, pdScale, ha]
  · intro a ha
    simp [vaccination_rate, pdDiv, pdScale, ha, asymm ha, not_lt.2 ha.le]
  · intro l p hp
    unfold dropna_rates at hp
    have hs := List.of_mem_filter hp
    exact Option.isSome_iff_ne_none.1 hs

unseal Rat.add Rat.mul Rat.inv Rat.sub in
/-- Witness for C8: the amended theorem instantiated at a finite ratio
(50 over 2 gives 2500 percent) and at a negative numerator over zero. -/
theorem C8_witness :
    vaccination_rate (some (.num 50)) (some (.num 2)) = some (.num 2500) ∧
    vaccination_rate (some (.num (-3))) (some (.num 0)) = some .ninf := by
  constructor
  · rw [C8_derived_rate_semantics.2.2.1 50 2 (by decide)]
    decide
  · exact C8_derived_rate_semantics.2.2.2.2.1 (-3) (by decide)

theorem rolling_mean_getD (w : Nat) (xs : List (Option ℚ)) (i : Nat) (h : i < xs.length) :
    (rolling_mean w xs).getD i none =
      (if w ≤ (((xs.take (i + 1)).drop (i + 1 - w)).filterMap id).length
       then some ((((xs.take (i + 1)).drop (i + 1 - w)).filterMap id).sum /
         ((((xs.take (i + 1)).drop (i + 1 - w)).filterMap id).length : ℚ))
       else none) := by
  unfold rolling_mean
  rw [getD_range_map _ _ h]

unseal Rat.add Rat.mul Rat.inv Rat.sub in
/-- Claim C9: the rolling average over a window of positive size `w` has the
length of its input, is null at the first `w - 1` positions, and at every
later position holds the mean of the `w` values ending there; the first
conjunct checks the example of the claim, `rolling_average([1,2,3,4,5], 3) =
[null, null, 2, 3, 4]`.  The general statement is for series without
internal nulls, as the claim describes (pandas would emit null for any
window touching a null). -/
theorem C9_rolling_average :
    rolling_mean 3 (([1, 2, 3, 4, 5] : List ℚ).map some) =
      [none, none, some 2, some 3, some 4] ∧
    (∀ (w : Nat) (qs : List ℚ), 1 ≤ w →
      (rolling_mean w (qs.map some)).length = (qs.map some).length ∧
      (∀ i : Nat, i < w - 1 → (rolling_mean w (qs.map some)).getD i none = none) ∧
      (∀ i : Nat, w - 1 ≤ i → i < qs.length →
        (rolling_mean w (qs.map some)).getD i none =
          some (((qs.take (i + 1)).drop (i + 1 - w)).sum / (w : ℚ)))) := by
  constructor
  · decide
  · intro w qs hw
    refine ⟨by simp [rolling_mean], ?_, ?_⟩
    · intro i hi
      by_cases hlen : i < (qs.map some).length
      · rw [rolling_mean_getD w _ i hlen, if_neg]
        intro hcontra
        have h1 := List.length_filterMap_le (id : Option ℚ → Option ℚ)
          (((qs.map some).take (i + 1)).drop (i + 1 - w))
        have h2 : (((qs.map some).take (i + 1)).drop (i + 1 - w)).length ≤ i + 1 := by
          simp only [List.length_drop, List.length_take, List.length_map]
          omega
        omega
      · rw [List.getD_eq_default]
        simpa [rolling_mean] using Nat.le_of_not_lt hlen
    · intro i hwi hi
      have hlen : i < (qs.map some).length := by simpa using hi
      have hwin : ((qs.map some).take (i + 1)).drop (i + 1 - w) =
          ((qs.take (i + 1)).drop (i + 1 - w)).map some := by
        rw [← List.map_take, ← List.map_drop]
      have hfm : (((qs.take (i + 1)).drop (i + 1 - w)).map some).filterMap id =
          (qs.take (i + 1)).drop (i + 1 - w) := by
        rw [List.filterMap_map]
        simp [Function.comp, List.filterMap_some]
      have hl : ((qs.take (i + 1)).drop (i + 1 - w)).length = w := by
        simp only [List.length_drop, List.length_take]
        omega
      rw [rolling_mean_getD w _ i hlen, hwin, hfm, hl, if_pos (le_refl w)]

unseal Rat.add Rat.mul Rat.inv Rat.sub in
/-- Witness for C9: the general statement instantiated at window 3 over the
series 1, 2, 3, 4, 5 and position 2, giving the mean 2 of the first three
values. -/
theorem C9_witness :
    (rolling_mean 3 (([1, 2, 3, 4, 5] : List ℚ).map some)).getD 2 none = some 2 := by
  have h := (C9_rolling_average.2 3 [1, 2, 3, 4, 5] (by decide)).2.2 2 (by decide) (by decide)
  rw [h]
  decide

/-- Claim C10: filtering the loaded dataset by an empty entity selection is a
pass-through; the result is the unfiltered dataset itself. -/
theorem C10_empty_filter : ∀ data : DF, filter_by_entities [] data = data :=
  fun _ => rfl

end CovidDashboard
